import Mathlib

/-!
Shallow embedding of the security_search indexer (src/index.js).

The program keeps two SQLite tables in one database file:
  * symbols   (filename TEXT, hash TEXT, metadata TEXT, embedding_id INT),
    with SQLite's implicit integer rowid;
  * embeddings, a vss0 virtual table with column a(1536), addressed by rowid.

We model rows as structures, the two tables as lists in insertion order
(SQLite returns rows in rowid order and rowids are assigned monotonically
here), and the implicit symbols rowid by a counter nextRow.  Vectors are
lists of rationals (JSON numbers).  External collaborators (file system,
OpenAI summarizer and embedder) are parameters in an Env record; exceptions
become Except values; the try/catch of buildIndex's per-file loop becomes
explicit control flow.  The per-file console output is abstracted as an
Outcome per candidate file (skipped for the "already known, skipping" path,
failed for the catch path, done otherwise).
-/

/-- One entry of the summarizer response's symbols array
(responseSchema: symbolName, line, description). -/
structure Item where
  symbolName : String
  line : Int
  description : String
deriving DecidableEq

/-- Parsed completion response: a json array at the symbols key. -/
structure Metadata where
  symbols : List Item
deriving DecidableEq

/-- One row of the symbols table.  rowid is SQLite's implicit rowid;
metadata holds the serialized Item (JSON.stringify is modelled by keeping
the structured value). -/
structure SymbolRow where
  rowid : Nat
  filename : String
  hash : String
  metadata : Item
  embedding_id : Nat
deriving DecidableEq

/-- One row of the embeddings vss0 virtual table: rowid and the vector
column a. -/
structure EmbRow where
  rowid : Nat
  a : List Rat
deriving DecidableEq

/-- The database: both tables plus the next implicit symbols rowid. -/
structure St where
  symbols : List SymbolRow
  embeddings : List EmbRow
  nextRow : Nat
deriving DecidableEq

/-- What buildIndex's per-file loop did for one candidate file: skipped
(hash already known), failed (the catch branch ran), done otherwise. -/
inductive Outcome
  | skipped
  | failed
  | done
deriving DecidableEq

/-- Bool test: pat is a prefix of the second list (character lists). -/
def listPrefix : List Char → List Char → Bool
  | [], _ => true
  | _ :: _, [] => false
  | p :: ps, c :: cs => p == c && listPrefix ps cs

/-- Bool test: pat occurs somewhere in the list. -/
def hasSubstring (pat : List Char) : List Char → Bool
  | [] => listPrefix pat []
  | c :: t => listPrefix pat (c :: t) || hasSubstring pat t

/-- JavaScript String.prototype.includes: case-sensitive substring test. -/
def strIncludes (s pat : String) : Bool := hasSubstring pat.toList s.toList

/-- Ephemeral per-file snapshot consumed by the update pass. -/
structure FileSnap where
  rel : String
  hash : String
  code : String
deriving DecidableEq

/-- External collaborators of one buildIndex run.  fileExists fn models
checkIfFileExistsInTheFilesystem(directoryPath, fn) with the run's fixed
directoryPath absorbed; sourceFiles is the traverseFiles result filtered by
isSourceFile, with each file's sha1 hash, utf-8 content and
relativeFile = file.replace(directoryPath, '') precomputed; summarize is
generateMetadata (Except.error for a thrown error or a response failing
responseSchema); embed is generateEmbedding. -/
structure Env where
  fileExists : String → Bool
  sourceFiles : List FileSnap
  summarize : String → Except String Metadata
  embed : String → Except String (List Rat)

/-- checkIfFileHashExists: select * from symbols where hash = ? limit 1,
plucked to its first column (filename, the first column of the table) and
coerced to a boolean by JavaScript truthiness, so an empty-string filename
would read as false. -/
def checkIfFileHashExists (st : St) (h : String) : Bool :=
  match st.symbols.find? (fun r => r.hash == h) with
  | some r => r.filename != ""
  | none => false

/-- checkIfFileNameIsKnown: select * from symbols where filename = ?
limit 1, plucked to filename; the caller tests it with JavaScript
truthiness (if (knownFile)). -/
def checkIfFileNameIsKnown (st : St) (fn : String) : Bool :=
  match st.symbols.find? (fun r => r.filename == fn) with
  | some r => r.filename != ""
  | none => false

/-- DELETE FROM embeddings WHERE rowid IN
(SELECT rowid FROM symbols WHERE filename = ?): the subquery yields the
implicit rowids of the symbols rows for fn (not their embedding_id), and
embeddings rows whose rowid is among those values are removed. -/
def deleteEmbeddingsForFilename (st : St) (fn : String) : St :=
  let ids := (st.symbols.filter (fun r => r.filename == fn)).map (fun r => r.rowid)
  { st with embeddings := st.embeddings.filter (fun e => !(ids.contains e.rowid)) }

/-- DELETE FROM symbols WHERE filename = ?. -/
def deleteSymbolsForFilename (st : St) (fn : String) : St :=
  { st with symbols := st.symbols.filter (fun r => !(r.filename == fn)) }

/-- One iteration body of the pruning loop for a file that is gone:
delete the embeddings rows selected by the symbols-rowid subquery, then
the symbols rows for that filename, in the source's statement order. -/
def pruneFile (st : St) (fn : String) : St :=
  deleteSymbolsForFilename (deleteEmbeddingsForFilename st fn) fn

/-- The pruning pass of buildIndex: iterate over the knownSymbols snapshot
(SELECT * FROM symbols taken before the loop) and prune each row whose
filename no longer exists in the file system. -/
def prunePass (env : Env) (st : St) : St :=
  st.symbols.foldl
    (fun acc row => if env.fileExists row.filename then acc else pruneFile acc row.filename) st

/-- The update pass's unit filter: item.symbolName.includes('export') etc.,
case-sensitive substring tests. -/
def isNoiseSymbol (name : String) : Bool :=
  strIncludes name "export" || strIncludes name "import" || strIncludes name "interface"

/-- Text sent to the embedder for one unit:
item.symbolName + ' ' + item.description. -/
def embedInput (it : Item) : String := it.symbolName ++ " " ++ it.description

/-- The pair of INSERTs for one successful unit: a new embeddings row with
rowid i and a new symbols row referencing it, the symbols row taking the
next implicit rowid. -/
def insertRecord (st : St) (i : Nat) (fn h : String) (it : Item) (vec : List Rat) : St :=
  { symbols := st.symbols ++
      [{ rowid := st.nextRow, filename := fn, hash := h, metadata := it, embedding_id := i }],
    embeddings := st.embeddings ++ [{ rowid := i, a := vec }],
    nextRow := st.nextRow + 1 }

/-- The for-loop over metadata.symbols of one file.  The Nat component is
the shared counter i (initialized to Date.now() by the caller and
incremented before each insert).  The Bool result records whether
generateEmbedding threw, which aborts the remaining units of this file
(the exception is only caught by the per-file try/catch). -/
def insertUnits (env : Env) (fn h : String) : List Item → St × Nat → (St × Nat) × Bool
  | [], s => (s, false)
  | it :: rest, s =>
    if isNoiseSymbol it.symbolName then insertUnits env fn h rest s
    else
      match env.embed (embedInput it) with
      | .error _ => (s, true)
      | .ok vec => insertUnits env fn h rest (insertRecord s.1 (s.2 + 1) fn h it vec, s.2 + 1)

/-- One iteration of buildIndex's per-file update loop: skip when the hash
is already known; otherwise read checkIfFileNameIsKnown, call the
summarizer (a throw is caught, leaving the store untouched), delete the
known file's embeddings rows via the symbols-rowid subquery, and insert
the filtered units; an embedder throw mid-loop is caught at this level,
keeping the units already inserted. -/
def processFile (env : Env) (f : FileSnap) (s : St × Nat) : (St × Nat) × Outcome :=
  if checkIfFileHashExists s.1 f.hash then (s, .skipped)
  else
    let known := checkIfFileNameIsKnown s.1 f.rel
    match env.summarize f.code with
    | .error _ => (s, .failed)
    | .ok metadata =>
      let s1 := if known then (deleteEmbeddingsForFilename s.1 f.rel, s.2) else s
      let r := insertUnits env f.rel f.hash metadata.symbols s1
      (r.1, if r.2 then .failed else .done)

/-- The whole per-file update loop, threading the store and counter and
collecting each file's outcome in traversal order. -/
def updatePass (env : Env) : List FileSnap → St × Nat → (St × Nat) × List Outcome
  | [], s => (s, [])
  | f :: rest, s =>
    let r := processFile env f s
    let r2 := updatePass env rest r.1
    (r2.1, r.2 :: r2.2)

/-- buildIndex(directoryPath): throw unless the path contains
'x-pack/plugins/security_solution'; then (tables created if absent,
a no-op here) run the pruning pass followed by the update pass over the
traversal result, with the insert counter starting at Date.now()
(parameter now). -/
def buildIndex (env : Env) (directoryPath : String) (now : Nat) (st : St) :
    Except String (St × List Outcome) :=
  if !(strIncludes directoryPath "x-pack/plugins/security_solution") then
    Except.error "invalid path to security_solution plugin"
  else
    let st1 := prunePass env st
    let r := updatePass env env.sourceFiles (st1, now)
    Except.ok (r.1.1, r.2)

/-- One hit of the inner vss_search subquery: rowid and distance. -/
structure Scored where
  rowid : Nat
  distance : Rat
deriving DecidableEq

/-- One row of runQuery's result set: e.*, f.filename, f.metadata. -/
structure QueryRow where
  rowid : Nat
  distance : Rat
  filename : String
  metadata : Item
deriving DecidableEq

/-- Ordering of inner hits by their distance column. -/
abbrev scoredLE (x y : Scored) : Prop := x.distance ≤ y.distance

/-- ORDER BY e.distance ASC on the joined rows. -/
abbrev rowLE (x y : QueryRow) : Prop := x.distance ≤ y.distance

instance : IsTrans Scored scoredLE := ⟨fun _ _ _ h h' => le_trans h h'⟩

instance : IsTotal Scored scoredLE := ⟨fun a b => le_total a.distance b.distance⟩

instance : IsTrans QueryRow rowLE := ⟨fun _ _ _ h h' => le_trans h h'⟩

instance : IsTotal QueryRow rowLE := ⟨fun a b => le_total a.distance b.distance⟩

/-- The inner subquery SELECT rowid, distance FROM embeddings WHERE
vss_search(a, ?) LIMIT k: the extension's k-nearest-neighbor search, i.e.
every stored vector scored by the extension's distance function d against
the query vector, the k smallest distances first.  The source hardcodes
k = 20 (LIMIT 20). -/
def vssSearch (d : List Rat → List Rat → Rat) (q : List Rat) (embs : List EmbRow)
    (k : Nat) : List Scored :=
  ((embs.map (fun e => { rowid := e.rowid, distance := d q e.a : Scored })).insertionSort
    scoredLE).take k

/-- JOIN symbols f ON f.embedding_id = e.rowid: each hit joined with every
symbols row referencing it. -/
def joinHits (st : St) : List Scored → List QueryRow
  | [] => []
  | e :: rest =>
    ((st.symbols.filter (fun r => r.embedding_id == e.rowid)).map
      (fun r => { rowid := e.rowid, distance := e.distance, filename := r.filename,
                  metadata := r.metadata : QueryRow })) ++ joinHits st rest

/-- runQuery's SELECT with the LIMIT generalized to k: inner kNN search,
join against symbols, ORDER BY e.distance ASC.  The query text has already
been embedded (generateEmbedding is external), giving q. -/
def runQueryK (d : List Rat → List Rat → Rat) (st : St) (q : List Rat) (k : Nat) :
    List QueryRow :=
  (joinHits st (vssSearch d q st.embeddings k)).insertionSort rowLE

/-- runQuery as in the source, with its hardcoded LIMIT 20. -/
def runQuery (d : List Rat → List Rat → Rat) (st : St) (q : List Rat) : List QueryRow :=
  runQueryK d st q 20

/-! Concrete environments and stores used to evaluate the code on small
inputs.  dirOK is a directory path accepted by buildIndex's guard;
stEmpty is a fresh database. -/

/-- A directory path containing the required plugin substring. -/
def dirOK : String := "/kibana/x-pack/plugins/security_solution"

/-- A fresh database with no rows. -/
def stEmpty : St := { symbols := [], embeddings := [], nextRow := 1 }

/-- Collaborators that are never consulted: no candidate files, every
known file still present on disk. -/
def envNil : Env :=
  { fileExists := fun _ => true, sourceFiles := [],
    summarize := fun _ => Except.error "unused",
    embed := fun _ => Except.error "unused" }

/-- C9: for every root directory path that does not contain the substring
'x-pack/plugins/security_solution', buildIndex throws its path guard error
immediately; the Except.error result is produced before the table
creation, pruning and update steps, so no deletion or insertion in either
store can occur and no arbitrary source tree can be indexed through this
operation. -/
theorem buildIndex_rejects_foreign_path (env : Env) (dir : String) (now : Nat) (st : St)
    (h : strIncludes dir "x-pack/plugins/security_solution" = false) :
    buildIndex env dir now st = Except.error "invalid path to security_solution plugin" := by
  simp [buildIndex, h]

/-- Witness for buildIndex_rejects_foreign_path at a concrete foreign
path. -/
theorem buildIndex_rejects_foreign_path_witness :
    strIncludes "/home/user/some/other/project" "x-pack/plugins/security_solution" = false ∧
    buildIndex envNil "/home/user/some/other/project" 0 stEmpty =
      Except.error "invalid path to security_solution plugin" :=
  ⟨by decide,
   buildIndex_rejects_foreign_path envNil "/home/user/some/other/project" 0 stEmpty (by decide)⟩

/-- C6: when a candidate file's content hash already matches the hash of
some existing symbols row — whichever filename owns it — the update loop
takes the 'already known, skipping' branch and leaves both tables exactly
as they were: zero deletions and zero insertions for that file.  The
hypothesis that stored filenames are nonempty reflects every reachable
store (relativeFile is a strict suffix of a path below directoryPath);
it is needed because checkIfFileHashExists reads the plucked filename
column through JavaScript truthiness. -/
theorem processFile_skips_matching_hash (env : Env) (f : FileSnap) (s : St × Nat)
    (r : SymbolRow) (hr : r ∈ s.1.symbols) (hh : r.hash = f.hash)
    (hne : ∀ r' ∈ s.1.symbols, r'.filename ≠ "") :
    processFile env f s = (s, Outcome.skipped) := by
  have hsome : (s.1.symbols.find? (fun r' => r'.hash == f.hash)).isSome := by
    rw [List.find?_isSome]
    exact ⟨r, hr, by simp [hh]⟩
  obtain ⟨r', hr'⟩ := Option.isSome_iff_exists.mp hsome
  have hmem : r' ∈ s.1.symbols := List.mem_of_find?_eq_some hr'
  have hex : checkIfFileHashExists s.1 f.hash = true := by
    unfold checkIfFileHashExists
    rw [hr']
    simpa using hne r' hmem
  simp [processFile, hex]

/-- A stored row carrying hash h1 under filename /x.ts. -/
def rowW6 : SymbolRow :=
  { rowid := 1, filename := "/x.ts", hash := "h1",
    metadata := { symbolName := "useThing", line := 4, description := "hook" },
    embedding_id := 900 }

/-- A store holding rowW6 and its embeddings row. -/
def stW6 : St :=
  { symbols := [rowW6], embeddings := [{ rowid := 900, a := [3] }], nextRow := 2 }

/-- Witness for processFile_skips_matching_hash: a store already holding
hash h1 under a different filename skips the candidate entirely. -/
theorem processFile_skips_matching_hash_witness :
    rowW6 ∈ stW6.symbols ∧ rowW6.hash = "h1" ∧ (∀ r' ∈ stW6.symbols, r'.filename ≠ "") ∧
    processFile envNil { rel := "/a.ts", hash := "h1", code := "code a" } (stW6, 0) =
      ((stW6, 0), Outcome.skipped) :=
  ⟨by decide, rfl, by decide,
   processFile_skips_matching_hash envNil { rel := "/a.ts", hash := "h1", code := "code a" }
     (stW6, 0) rowW6 (by decide) rfl (by decide)⟩

/-- C5 (amended): when the summarizer call for a file throws or its
response fails validation, the catch branch leaves both tables exactly as
they were — in particular no symbols row carrying the file's new hash is
persisted, so the file is retried on the next run.  (The original claim
also covered embedder errors; see the counterexample for that case.) -/
theorem processFile_summarizer_failure_persists_nothing (env : Env) (f : FileSnap)
    (s : St × Nat) (e : String)
    (hhash : checkIfFileHashExists s.1 f.hash = false)
    (hsum : env.summarize f.code = Except.error e) :
    processFile env f s = (s, Outcome.failed) := by
  simp [processFile, hhash, hsum]

/-- Summarizer that always fails to parse; embedder unused. -/
def envW5 : Env :=
  { fileExists := fun _ => true, sourceFiles := [{ rel := "/d.ts", hash := "h9", code := "c9" }],
    summarize := fun _ => Except.error "could not parse completion response",
    embed := fun _ => Except.ok [1] }

/-- Witness for processFile_summarizer_failure_persists_nothing on a fresh
store. -/
theorem processFile_summarizer_failure_witness :
    checkIfFileHashExists stEmpty "h9" = false ∧
    envW5.summarize "c9" = Except.error "could not parse completion response" ∧
    processFile envW5 { rel := "/d.ts", hash := "h9", code := "c9" } (stEmpty, 40) =
      ((stEmpty, 40), Outcome.failed) :=
  ⟨by decide, rfl,
   processFile_summarizer_failure_persists_nothing envW5
     { rel := "/d.ts", hash := "h9", code := "c9" } (stEmpty, 40)
     "could not parse completion response" (by decide) rfl⟩

/-- First unit of the two-unit summaries used in the failure scenarios. -/
def itAlpha : Item := { symbolName := "alpha", line := 1, description := "da" }

/-- Second unit of the two-unit summaries used in the failure scenarios. -/
def itBeta : Item := { symbolName := "beta", line := 2, description := "db" }

/-- Environment whose embedder fails exactly on the second unit's input
(beta db) and succeeds on the first. -/
def envC5 : Env :=
  { fileExists := fun _ => true,
    sourceFiles := [{ rel := "/a.ts", hash := "h2", code := "code" }],
    summarize := fun _ => Except.ok { symbols := [itAlpha, itBeta] },
    embed := fun s => if s == "beta db" then Except.error "boom" else Except.ok [2] }

/-- The store produced by the envC5 run: the file is recorded as failed,
yet a symbols row carrying its new hash h2 was persisted for alpha. -/
def stC5res : St :=
  { symbols := [{ rowid := 1, filename := "/a.ts", hash := "h2", metadata := itAlpha,
                  embedding_id := 11 }],
    embeddings := [{ rowid := 11, a := [2] }], nextRow := 2 }

/-- C5 counterexample: a run records a failure for /a.ts (embedder error
on its second unit), yet a Unit Record carrying the file's new
fingerprint h2 is persisted by that same run — so the file is not
reprocessed next run (its hash now matches). -/
theorem buildIndex_embed_failure_persists_new_hash :
    buildIndex envC5 dirOK 10 stEmpty = Except.ok (stC5res, [Outcome.failed]) ∧
    stC5res.symbols.any (fun r => r.hash == "h2") = true ∧
    checkIfFileHashExists stC5res "h2" = true := by
  exact ⟨rfl, rfl, rfl⟩

/-- Environment whose embedder fails exactly on the first unit's input
(alpha da) and would succeed on the sibling's. -/
def envC4 : Env :=
  { fileExists := fun _ => true,
    sourceFiles := [{ rel := "/a.ts", hash := "h1", code := "code" }],
    summarize := fun _ => Except.ok { symbols := [itAlpha, itBeta] },
    embed := fun s => if s == "alpha da" then Except.error "boom" else Except.ok [1] }

/-- C4 counterexample: the embedder fails for one unit (alpha) of a file
while it would succeed for the sibling (beta), yet the run persists
nothing at all for the file — the sibling is not embedded, because the
per-file try/catch aborts the whole unit loop on the first throw. -/
theorem buildIndex_embed_failure_drops_siblings :
    envC4.embed (embedInput itBeta) = Except.ok [1] ∧
    buildIndex envC4 dirOK 10 stEmpty = Except.ok (stEmpty, [Outcome.failed]) := by
  exact ⟨rfl, rfl⟩

/-- C4 (amended): an embedder failure on one unit aborts that unit and all
later units of the same file; the store and counter are left exactly as
they stood after the units preceding the failure, whose rows remain
persisted, and the error flag makes the file's outcome failed. -/
theorem insertUnits_stops_at_embed_failure (env : Env) (fn h : String)
    (pre post : List Item) (it : Item) (s : St × Nat) (e : String)
    (hnoise : isNoiseSymbol it.symbolName = false)
    (hfail : env.embed (embedInput it) = Except.error e) :
    (∀ j ∈ pre, isNoiseSymbol j.symbolName = false →
      ∃ v, env.embed (embedInput j) = Except.ok v) →
    insertUnits env fn h (pre ++ it :: post) s = ((insertUnits env fn h pre s).1, true) := by
  induction pre generalizing s with
  | nil => intro _; simp [insertUnits, hnoise, hfail]
  | cons j rest ih =>
    intro hok
    by_cases hj : isNoiseSymbol j.symbolName = true
    · simpa [insertUnits, hj] using
        ih s (fun j' hj' hn' => hok j' (List.mem_cons_of_mem j hj') hn')
    · have hjf : isNoiseSymbol j.symbolName = false := by
        cases hcase : isNoiseSymbol j.symbolName
        · rfl
        · exact absurd hcase hj
      obtain ⟨v, hv⟩ := hok j (List.mem_cons_self j rest) hjf
      simpa [insertUnits, hjf, hv] using
        ih (insertRecord s.1 (s.2 + 1) fn h j v, s.2 + 1)
          (fun j' hj' hn' => hok j' (List.mem_cons_of_mem j hj') hn')

/-- Witness for insertUnits_stops_at_embed_failure: alpha's embedding
fails immediately, so nothing is inserted and the error flag is set. -/
theorem insertUnits_stops_at_embed_failure_witness :
    isNoiseSymbol itAlpha.symbolName = false ∧
    envC4.embed (embedInput itAlpha) = Except.error "boom" ∧
    insertUnits envC4 "/a.ts" "h1" ([] ++ itAlpha :: [itBeta]) (stEmpty, 10) =
      ((insertUnits envC4 "/a.ts" "h1" [] (stEmpty, 10)).1, true) :=
  ⟨by decide, rfl,
   insertUnits_stops_at_embed_failure envC4 "/a.ts" "h1" [] [itBeta] itAlpha (stEmpty, 10)
     "boom" (by decide) rfl (fun j hj _ => absurd hj (List.not_mem_nil j))⟩

/-- Environment for the pruning scenarios: the indexed file is gone from
the file system and no candidates are found. -/
def envC1 : Env :=
  { fileExists := fun _ => false, sourceFiles := [],
    summarize := fun _ => Except.error "unused",
    embed := fun _ => Except.error "unused" }

/-- Store holding one indexed file /b.ts: a symbols row (implicit rowid 1)
and its paired embeddings row 500. -/
def stC1 : St :=
  { symbols := [{ rowid := 1, filename := "/b.ts", hash := "hb",
                  metadata := { symbolName := "fooBar", line := 3, description := "does things" },
                  embedding_id := 500 }],
    embeddings := [{ rowid := 500, a := [2] }], nextRow := 2 }

/-- C1 evaluated at its failing input: after a completed run that prunes
the vanished file /b.ts, its symbols row is gone but the embeddings row it
referenced (rowid 500) survives, because the DELETE on embeddings keys
rowid by the symbols rows' implicit rowids (here 1) instead of their
embedding_id — an orphan Vector Entry, violating the lockstep invariant. -/
theorem buildIndex_prune_leaves_orphan_embedding :
    buildIndex envC1 dirOK 7 stC1 =
      Except.ok ({ symbols := [], embeddings := [{ rowid := 500, a := [2] }], nextRow := 2 },
        []) := by
  exact rfl

/-- Environment for the change-detection scenario: /a.ts still exists on
disk and now carries content code2 with hash h2. -/
def envC2 : Env :=
  { fileExists := fun _ => true,
    sourceFiles := [{ rel := "/a.ts", hash := "h2", code := "code2" }],
    summarize := fun _ =>
      Except.ok { symbols := [{ symbolName := "fooFn", line := 1, description := "does foo" }] },
    embed := fun _ => Except.ok [4] }

/-- Store where /a.ts is indexed under its old hash h1. -/
def stC2 : St :=
  { symbols := [{ rowid := 1, filename := "/a.ts", hash := "h1",
                  metadata := { symbolName := "oldFn", line := 1, description := "old" },
                  embedding_id := 100 }],
    embeddings := [{ rowid := 100, a := [3] }], nextRow := 2 }

/-- C2 evaluated at its failing input: after /a.ts changed from h1 to h2,
the completed run keeps the prior symbols row (hash h1, rowid 1) and its
embeddings row 100 — the update pass never deletes old symbols rows, and
its DELETE on embeddings keys rowid by symbols rowid 1 instead of
embedding_id 100 — while inserting the new rows carrying h2 alongside. -/
theorem buildIndex_update_keeps_stale_rows :
    buildIndex envC2 dirOK 1000 stC2 =
      Except.ok
        ({ symbols := [{ rowid := 1, filename := "/a.ts", hash := "h1",
                         metadata := { symbolName := "oldFn", line := 1, description := "old" },
                         embedding_id := 100 },
                       { rowid := 2, filename := "/a.ts", hash := "h2",
                         metadata := { symbolName := "fooFn", line := 1, description := "does foo" },
                         embedding_id := 1001 }],
           embeddings := [{ rowid := 100, a := [3] }, { rowid := 1001, a := [4] }],
           nextRow := 3 },
         [Outcome.done]) := by
  exact rfl

/-- Environment for the C3 pruning scenario: /c.tsx has been removed from
the file system. -/
def envC3 : Env :=
  { fileExists := fun _ => false, sourceFiles := [],
    summarize := fun _ => Except.error "na",
    embed := fun _ => Except.error "na" }

/-- Store holding one indexed file /c.tsx (symbols rowid 1, embeddings row
777). -/
def stC3 : St :=
  { symbols := [{ rowid := 1, filename := "/c.tsx", hash := "hc",
                  metadata := { symbolName := "renderThing", line := 9, description := "renders" },
                  embedding_id := 777 }],
    embeddings := [{ rowid := 777, a := [5] }], nextRow := 2 }

/-- C3 evaluated at its failing input: the pruning pass deletes every
symbols row of the vanished /c.tsx, but the paired embeddings row 777
survives, because the DELETE on embeddings selects symbols rowids (1)
rather than embedding_id (777); the claim's paired-Vector-Entry deletion
does not happen. -/
theorem buildIndex_prune_keeps_paired_embedding :
    buildIndex envC3 dirOK 9 stC3 =
      Except.ok ({ symbols := [], embeddings := [{ rowid := 777, a := [5] }], nextRow := 2 },
        []) := by
  exact rfl

/-- Every symbols row present after the unit loop was either already in the
store or belongs to an item that passed the noise filter. -/
theorem insertUnits_mem_symbols (env : Env) (fn h : String) :
    ∀ (items : List Item) (s : St × Nat) (r : SymbolRow),
      r ∈ (insertUnits env fn h items s).1.1.symbols →
      r ∈ s.1.symbols ∨ isNoiseSymbol r.metadata.symbolName = false := by
  intro items
  induction items with
  | nil =>
    intro s r hr
    exact Or.inl (by simpa [insertUnits] using hr)
  | cons it rest ih =>
    intro s r hr
    by_cases hn : isNoiseSymbol it.symbolName = true
    · exact ih s r (by simpa [insertUnits, hn] using hr)
    · have hnf : isNoiseSymbol it.symbolName = false := by
        cases hcase : isNoiseSymbol it.symbolName
        · rfl
        · exact absurd hcase hn
      cases hembed : env.embed (embedInput it) with
      | error e =>
        simp only [insertUnits, hnf, hembed] at hr
        simp at hr
        exact Or.inl hr
      | ok vec =>
        simp only [insertUnits, hnf, hembed] at hr
        simp at hr
        rcases ih _ r hr with hmem | hnoise
        · simp only [insertRecord, List.mem_append, List.mem_singleton] at hmem
          rcases hmem with hold | hnew
          · exact Or.inl hold
          · subst hnew
            exact Or.inr hnf
        · exact Or.inr hnoise

/-- Every symbols row present after one update-loop iteration was either
already there or passed the noise filter (the iteration's only deletion
touches the embeddings table). -/
theorem processFile_mem_symbols (env : Env) (f : FileSnap) (s : St × Nat) (r : SymbolRow) :
    r ∈ (processFile env f s).1.1.symbols →
    r ∈ s.1.symbols ∨ isNoiseSymbol r.metadata.symbolName = false := by
  intro hr
  by_cases hh : checkIfFileHashExists s.1 f.hash = true
  · exact Or.inl (by simpa [processFile, hh] using hr)
  · have hhf : checkIfFileHashExists s.1 f.hash = false := by
      cases hcase : checkIfFileHashExists s.1 f.hash
      · rfl
      · exact absurd hcase hh
    cases hs : env.summarize f.code with
    | error e => exact Or.inl (by simpa [processFile, hhf, hs] using hr)
    | ok md =>
      simp only [processFile, hhf, hs, Bool.false_eq_true, if_false] at hr
      by_cases hk : checkIfFileNameIsKnown s.1 f.rel = true
      · simp only [hk, if_true] at hr
        rcases insertUnits_mem_symbols env f.rel f.hash md.symbols
            (deleteEmbeddingsForFilename s.1 f.rel, s.2) r hr with hmem | hnoise
        · exact Or.inl (by simpa [deleteEmbeddingsForFilename] using hmem)
        · exact Or.inr hnoise
      · simp only [hk, if_false] at hr
        exact insertUnits_mem_symbols env f.rel f.hash md.symbols s r hr

/-- Extends processFile_mem_symbols over the whole update pass. -/
theorem updatePass_mem_symbols (env : Env) :
    ∀ (files : List FileSnap) (s : St × Nat) (r : SymbolRow),
      r ∈ (updatePass env files s).1.1.symbols →
      r ∈ s.1.symbols ∨ isNoiseSymbol r.metadata.symbolName = false := by
  intro files
  induction files with
  | nil =>
    intro s r hr
    exact Or.inl (by simpa [updatePass] using hr)
  | cons f rest ih =>
    intro s r hr
    simp only [updatePass] at hr
    rcases ih (processFile env f s).1 r hr with hmem | hnoise
    · exact processFile_mem_symbols env f s r hmem
    · exact Or.inr hnoise

/-- The pruning loop (a foldl whose body only deletes rows) never adds a
symbols row. -/
theorem pruneFoldl_mem_symbols (env : Env) :
    ∀ (l : List SymbolRow) (acc : St) (r : SymbolRow),
      r ∈ (l.foldl (fun acc row =>
        if env.fileExists row.filename then acc else pruneFile acc row.filename) acc).symbols →
      r ∈ acc.symbols := by
  intro l
  induction l with
  | nil => intro acc r hr; simpa using hr
  | cons row rest ih =>
    intro acc r hr
    simp only [List.foldl_cons] at hr
    by_cases hex : env.fileExists row.filename = true
    · simp only [hex, if_true] at hr
      exact ih acc r hr
    · simp only [hex, if_false] at hr
      have := ih (pruneFile acc row.filename) r hr
      simp only [pruneFile, deleteSymbolsForFilename, deleteEmbeddingsForFilename,
        List.mem_filter] at this
      exact this.1

/-- The pruning pass never adds a symbols row. -/
theorem prunePass_mem_symbols (env : Env) (st : St) (r : SymbolRow)
    (hr : r ∈ (prunePass env st).symbols) : r ∈ st.symbols :=
  pruneFoldl_mem_symbols env st.symbols st r (by simpa [prunePass] using hr)

/-- Every symbols row present after a completed buildIndex run was either
already in the store or belongs to a summarizer item that passed the
update loop's noise filter. -/
theorem buildIndex_mem_symbols (env : Env) (dir : String) (now : Nat) (st st' : St)
    (outs : List Outcome) (hrun : buildIndex env dir now st = Except.ok (st', outs))
    (r : SymbolRow) (hr : r ∈ st'.symbols) :
    r ∈ st.symbols ∨ isNoiseSymbol r.metadata.symbolName = false := by
  by_cases hg : strIncludes dir "x-pack/plugins/security_solution" = true
  · simp only [buildIndex, hg, Bool.not_true, Bool.false_eq_true, if_false,
      Except.ok.injEq] at hrun
    have hst' : st' = (updatePass env env.sourceFiles (prunePass env st, now)).1.1 := by
      have := congrArg Prod.fst hrun
      simpa using this.symm
    subst hst'
    rcases updatePass_mem_symbols env env.sourceFiles (prunePass env st, now) r hr
        with hmem | hnoise
    · exact Or.inl (prunePass_mem_symbols env st r hmem)
    · exact Or.inr hnoise
  · have hgf : strIncludes dir "x-pack/plugins/security_solution" = false := by
      cases hcase : strIncludes dir "x-pack/plugins/security_solution"
      · rfl
      · exact absurd hcase hg
    simp [buildIndex, hgf] at hrun

/-- C8: a summarizer unit whose symbolName is exactly export is never
persisted as a Unit Record: any symbols row that is new after a completed
buildIndex run has a symbolName other than export (its paired embeddings
insert therefore never happened for such a unit either, as the two inserts
only occur together in the unit loop). -/
theorem buildIndex_never_persists_export (env : Env) (dir : String) (now : Nat)
    (st st' : St) (outs : List Outcome)
    (hrun : buildIndex env dir now st = Except.ok (st', outs))
    (r : SymbolRow) (hr : r ∈ st'.symbols) (hnew : r ∉ st.symbols) :
    r.metadata.symbolName ≠ "export" := by
  rcases buildIndex_mem_symbols env dir now st st' outs hrun r hr with hmem | hnoise
  · exact absurd hmem hnew
  · intro hname
    rw [hname] at hnoise
    exact absurd hnoise (by decide)

/-- Environment whose summarizer reports a unit named export next to an
ordinary unit. -/
def envC8 : Env :=
  { fileExists := fun _ => true,
    sourceFiles := [{ rel := "/b.ts", hash := "h8", code := "c8" }],
    summarize := fun _ =>
      Except.ok { symbols := [{ symbolName := "export", line := 1, description := "noise" },
                              { symbolName := "goodFn", line := 2, description := "fine" }] },
    embed := fun _ => Except.ok [5] }

/-- The store produced by the envC8 run: only goodFn was persisted. -/
def stC8res : St :=
  { symbols := [{ rowid := 1, filename := "/b.ts", hash := "h8",
                  metadata := { symbolName := "goodFn", line := 2, description := "fine" },
                  embedding_id := 21 }],
    embeddings := [{ rowid := 21, a := [5] }], nextRow := 2 }

/-- The one row the envC8 run persists. -/
def rowC8 : SymbolRow :=
  { rowid := 1, filename := "/b.ts", hash := "h8",
    metadata := { symbolName := "goodFn", line := 2, description := "fine" },
    embedding_id := 21 }

/-- Witness for buildIndex_never_persists_export on the envC8 run. -/
theorem buildIndex_never_persists_export_witness :
    buildIndex envC8 dirOK 20 stEmpty = Except.ok (stC8res, [Outcome.done]) ∧
    rowC8 ∈ stC8res.symbols ∧ rowC8 ∉ stEmpty.symbols ∧
    rowC8.metadata.symbolName ≠ "export" :=
  ⟨rfl, by decide, by decide,
   buildIndex_never_persists_export envC8 dirOK 20 stEmpty stC8res [Outcome.done] rfl
     rowC8 (by decide) (by decide)⟩

/-- Environment whose summarizer reports a unit named MyInterfaceImpl. -/
def envC10 : Env :=
  { fileExists := fun _ => true,
    sourceFiles := [{ rel := "/c.ts", hash := "h10", code := "c10" }],
    summarize := fun _ =>
      Except.ok { symbols := [{ symbolName := "MyInterfaceImpl", line := 3,
                                description := "impl" }] },
    embed := fun _ => Except.ok [6] }

/-- The store produced by the envC10 run. -/
def stC10res : St :=
  { symbols := [{ rowid := 1, filename := "/c.ts", hash := "h10",
                  metadata := { symbolName := "MyInterfaceImpl", line := 3,
                                description := "impl" },
                  embedding_id := 31 }],
    embeddings := [{ rowid := 31, a := [6] }], nextRow := 2 }

/-- C10 counterexample: a unit named MyInterfaceImpl — one of the claim's
own examples — passes the filter and IS persisted as a Unit Record,
because String.prototype.includes is case-sensitive and MyInterfaceImpl
does not contain the lowercase token interface. -/
theorem buildIndex_persists_MyInterfaceImpl :
    isNoiseSymbol "MyInterfaceImpl" = false ∧
    buildIndex envC10 dirOK 30 stEmpty = Except.ok (stC10res, [Outcome.done]) ∧
    stC10res.symbols.any (fun r => r.metadata.symbolName == "MyInterfaceImpl") = true := by
  exact ⟨by decide, rfl, rfl⟩

/-- C10 (amended): the unit-name noise filter is a case-sensitive
substring test: a unit whose symbolName contains export, import or
interface as a lowercase substring anywhere (isNoiseSymbol, e.g.
exportItems) is never persisted as a new Unit Record, but a name matching
only case-insensitively, such as MyInterfaceImpl, is not filtered. -/
theorem buildIndex_noise_filter_case_sensitive :
    (∀ (env : Env) (dir : String) (now : Nat) (st st' : St) (outs : List Outcome),
      buildIndex env dir now st = Except.ok (st', outs) →
      ∀ r ∈ st'.symbols, r ∉ st.symbols → isNoiseSymbol r.metadata.symbolName = false) ∧
    isNoiseSymbol "exportItems" = true ∧ isNoiseSymbol "MyInterfaceImpl" = false := by
  refine ⟨?_, by decide, by decide⟩
  intro env dir now st st' outs hrun r hr hnew
  rcases buildIndex_mem_symbols env dir now st st' outs hrun r hr with hmem | hnoise
  · exact absurd hmem hnew
  · exact hnoise

/-- Witness for buildIndex_noise_filter_case_sensitive on the envC10
run. -/
theorem buildIndex_noise_filter_case_sensitive_witness :
    buildIndex envC10 dirOK 30 stEmpty = Except.ok (stC10res, [Outcome.done]) ∧
    isNoiseSymbol
      { rowid := 1, filename := "/c.ts", hash := "h10",
        metadata := { symbolName := "MyInterfaceImpl", line := 3, description := "impl" },
        embedding_id := 31 : SymbolRow }.metadata.symbolName = false :=
  ⟨rfl,
   buildIndex_noise_filter_case_sensitive.1 envC10 dirOK 30 stEmpty stC10res [Outcome.done]
     rfl
     { rowid := 1, filename := "/c.ts", hash := "h10",
       metadata := { symbolName := "MyInterfaceImpl", line := 3, description := "impl" },
       embedding_id := 31 } (by decide) (by decide)⟩

/-- When the stored embedding_id values are pairwise distinct, at most one
symbols row matches any given rowid. -/
theorem filter_embedding_id_length_le_one (l : List SymbolRow)
    (hnd : (l.map SymbolRow.embedding_id).Nodup) (k : Nat) :
    (l.filter (fun r => r.embedding_id == k)).length ≤ 1 := by
  induction l with
  | nil => simp
  | cons x t ih =>
    simp only [List.map_cons, List.nodup_cons] at hnd
    by_cases hx : x.embedding_id = k
    · have htnil : t.filter (fun r => r.embedding_id == k) = [] := by
        rw [List.filter_eq_nil_iff]
        intro y hy
        simp only [beq_iff_eq]
        intro hyk
        exact hnd.1 (by
          rw [← hx] at hyk
          exact hyk ▸ List.mem_map_of_mem SymbolRow.embedding_id hy)
      simp [List.filter_cons, hx, htnil]
    · simp only [List.filter_cons, beq_iff_eq, hx, if_false]
      exact ih hnd.2

/-- The join adds at most one result row per inner hit when embedding_id
values are distinct. -/
theorem joinHits_length_le (st : St)
    (hnd : (st.symbols.map SymbolRow.embedding_id).Nodup) :
    ∀ hits : List Scored, (joinHits st hits).length ≤ hits.length := by
  intro hits
  induction hits with
  | nil => simp [joinHits]
  | cons e rest ih =>
    simp only [joinHits, List.length_append, List.length_map, List.length_cons]
    have h1 := filter_embedding_id_length_le_one st.symbols hnd e.rowid
    omega

/-- The inner kNN subquery returns at most k hits. -/
theorem vssSearch_length_le (d : List Rat → List Rat → Rat) (q : List Rat)
    (embs : List EmbRow) (k : Nat) : (vssSearch d q embs k).length ≤ k :=
  List.length_take_le _ _

/-- Distance function for the retrieval-ordering scenario: the extension's
metric is external, so any function realizing the spec's three distances
serves; this one reads the stored one-dimensional vector. -/
def dHead : List Rat → List Rat → Rat := fun _ v => v.headD 0

/-- Unit record joined to the nearest entry of the scenario. -/
def itemQ1 : Item := { symbolName := "q1", line := 1, description := "d1" }

/-- Unit record joined to the second-nearest entry of the scenario. -/
def itemQ2 : Item := { symbolName := "q2", line := 2, description := "d2" }

/-- Unit record joined to the farthest entry of the scenario. -/
def itemQ3 : Item := { symbolName := "q3", line := 3, description := "d3" }

/-- Store with three Vector Entries at distances 1/10, 1/2 and 9/10 from
the query embedding under dHead, each joined to one Unit Record. -/
def stC7 : St :=
  { symbols := [{ rowid := 1, filename := "/f1.ts", hash := "ha", metadata := itemQ1,
                  embedding_id := 1 },
                { rowid := 2, filename := "/f2.ts", hash := "hb", metadata := itemQ2,
                  embedding_id := 2 },
                { rowid := 3, filename := "/f3.ts", hash := "hc", metadata := itemQ3,
                  embedding_id := 3 }],
    embeddings := [{ rowid := 1, a := [mkRat 1 10] }, { rowid := 2, a := [mkRat 1 2] },
                   { rowid := 3, a := [mkRat 9 10] }],
    nextRow := 4 }

/-- C7: runQuery returns at most its hardcoded LIMIT of 20 rows (for
stores whose embedding_id values are distinct, as every store this
program writes), ordered ascending by distance; and on the scenario with
stored distances 1/10, 1/2 and 9/10 the same query with the LIMIT set to
2 returns exactly the two closest entries in ascending distance order. -/
theorem runQuery_limit_and_ordering :
    (∀ (d : List Rat → List Rat → Rat) (st : St) (q : List Rat),
        (st.symbols.map SymbolRow.embedding_id).Nodup →
        (runQuery d st q).length ≤ 20 ∧ List.Sorted rowLE (runQuery d st q)) ∧
    runQueryK dHead stC7 [] 2 =
      [{ rowid := 1, distance := mkRat 1 10, filename := "/f1.ts", metadata := itemQ1 },
       { rowid := 2, distance := mkRat 1 2, filename := "/f2.ts", metadata := itemQ2 }] := by
  constructor
  · intro d st q hnd
    constructor
    · have hperm := (List.perm_insertionSort rowLE
        (joinHits st (vssSearch d q st.embeddings 20))).length_eq
      have hjoin := joinHits_length_le st hnd (vssSearch d q st.embeddings 20)
      have hvss := vssSearch_length_le d q st.embeddings 20
      simp only [runQuery, runQueryK]
      omega
    · exact List.sorted_insertionSort rowLE _
  · decide

/-- Witness for runQuery_limit_and_ordering's universal part at the
scenario store. -/
theorem runQuery_limit_and_ordering_witness :
    (stC7.symbols.map SymbolRow.embedding_id).Nodup ∧
    ((runQuery dHead stC7 []).length ≤ 20 ∧ List.Sorted rowLE (runQuery dHead stC7 [])) :=
  ⟨by decide, runQuery_limit_and_ordering.1 dHead stC7 [] (by decide)⟩
